import Mathlib

/-!
Verification development for the pyBL integral boundary layer library.

This file gives a shallow embedding, over the real numbers, of the two
closure-method modules of the repository:

  * `src/pyBL/thwaites_method.py` — Thwaites' one-equation laminar method
    (the `_ThwaitesFunctions` closure-model bundle with its range clamping,
    the linear right-hand side, and the derived-quantity queries), and
  * `src/pyBL/head_method.py` — Head's two-equation turbulent method
    (the piecewise entrainment correlations `_H1`, `_H1p`, `_S`, the declared
    inverse `_H_d`, the right-hand side `_ode_impl`, and the derived
    quantities).

Python floats are modelled as exact reals; `numpy` arrays as `List ℝ`;
functions that raise `ValueError` return `Except String _` (for the
configuration setters) or `Option _` (for the correlation `_H_d`).  The
in-place clamping that `_H1`, `_H1p` and `_S` perform on a caller-supplied
array is modelled by returning, next to the mathematical result, the list the
caller's array holds after the call (`np.asarray` of an ndarray aliases the
argument, so the fancy-index assignment mutates the caller's data).
-/

open Real

noncomputable section

namespace PyBL

/-! ## Embedding of src/pyBL/thwaites_method.py -/

/-- Bundle of curve fits for Thwaites data, mirroring class
`_ThwaitesFunctions(name, S_fun, H_fun, Hp_fun, lambda_min, lambda_max)`.
The range bounds live in `EReal` because the custom and White models use
`np.inf` / `-np.inf` as bounds. -/
structure ThwaitesFunctions where
  name : String
  S_fun : ℝ → ℝ
  H_fun : ℝ → ℝ
  Hp_fun : ℝ → ℝ
  lambda_min : EReal
  lambda_max : EReal

namespace ThwaitesFunctions

/-- `_ThwaitesFunctions._check_range` for a scalar argument: clamp below
`lambda_min`, else clamp above `lambda_max` (the source uses `if ... elif`,
which for a scalar is exactly this nested conditional). -/
def check_range (m : ThwaitesFunctions) (lam : ℝ) : ℝ :=
  if (lam : EReal) < m.lambda_min then m.lambda_min.toReal
  else if m.lambda_max < (lam : EReal) then m.lambda_max.toReal
  else lam

/-- `_ThwaitesFunctions.S`: the shear function, evaluated on the clamped
argument. -/
def S (m : ThwaitesFunctions) (lam : ℝ) : ℝ := m.S_fun (m.check_range lam)

/-- `_ThwaitesFunctions.H`: the shape function, evaluated on the clamped
argument. -/
def H (m : ThwaitesFunctions) (lam : ℝ) : ℝ := m.H_fun (m.check_range lam)

/-- `_ThwaitesFunctions.Hp`: the shape-function slope, evaluated on the
clamped argument. -/
def Hp (m : ThwaitesFunctions) (lam : ℝ) : ℝ := m.Hp_fun (m.check_range lam)

/-- `_ThwaitesFunctions.F`: `2*(self.S(lam) - lam*(self.H(lam)+2))`.  Note
that the factor `lam` multiplying `(H+2)` is the raw argument; only the
arguments of `S` and `H` pass through `_check_range`. -/
def F (m : ThwaitesFunctions) (lam : ℝ) : ℝ :=
  2 * (m.S lam - lam * (m.H lam + 2))

/-- Modelled from the spec: the nonlinear F term as the specification words
it, `2*[S(lam_c) - lam_c*(H(lam_c)+2)]` with the clamped value `lam_c` used
uniformly in every occurrence of lambda, including the multiplicative one.
This is the claim-side definition used to compare against the source's `F`. -/
def F_spec (m : ThwaitesFunctions) (lam : ℝ) : ℝ :=
  2 * (m.S_fun (m.check_range lam) -
    m.check_range lam * (m.H_fun (m.check_range lam) + 2))

end ThwaitesFunctions

/-- The Cebeci–Bradshaw closure model `_ThwaitesFunctionsCebeciBradshaw`:
piecewise closed-form fits with valid lambda domain `[-0.1, 0.1]`.
`np.piecewise(lam, [lam < 0, lam >= 0], ...)` is, for a scalar, the
conditional below. -/
def thwaitesCB : ThwaitesFunctions where
  name := "Cebeci and Bradshaw"
  S_fun := fun lam =>
    if lam < 0 then 0.22 + 1.402 * lam + 0.018 * lam / (0.107 + lam)
    else 0.22 + 1.57 * lam - 1.8 * lam ^ 2
  H_fun := fun lam =>
    if lam < 0 then 2.088 + 0.0731 / (0.14 + lam)
    else 2.61 - 3.75 * lam + 5.24 * lam ^ 2
  Hp_fun := fun lam =>
    if lam < 0 then -0.0731 / (0.14 + lam) ^ 2
    else -3.75 + 2 * 5.24 * lam
  lambda_min := ((-0.1 : ℝ) : EReal)
  lambda_max := ((0.1 : ℝ) : EReal)

/-- The White closure model `_ThwaitesFunctionsWhite`: closed-form fits with
valid lambda domain `[-0.09, ∞)`. -/
def thwaitesWhite : ThwaitesFunctions where
  name := "White"
  S_fun := fun lam => (lam + 0.09) ^ (0.62 : ℝ)
  H_fun := fun lam =>
    2 + (0.25 - lam) * (4.14 + (0.25 - lam) * (-83.5 + (0.25 - lam) *
      (854 + (0.25 - lam) * (-3337 + (0.25 - lam) * 4576))))
  Hp_fun := fun lam =>
    -(4.14 + (0.25 - lam) * (-2 * 83.5 + (0.25 - lam) * (3 * 854 +
      (0.25 - lam) * (-4 * 3337 + (0.25 - lam) * 5 * 4576))))
  lambda_min := ((-0.09 : ℝ) : EReal)
  lambda_max := (⊤ : EReal)

/-- State of a configured `ThwaitesMethod` instance: viscosity, the edge
velocity profile with its derivative, the selected closure model, and the
stored ODE solution `x ↦ delta_m(x)^2 / nu` (the interpolant produced by the
base-class solve, abstract here). -/
structure ThwaitesMethodData where
  nu : ℝ
  U_e : ℝ → ℝ
  dU_edx : ℝ → ℝ
  model : ThwaitesFunctions
  sol : ℝ → ℝ

namespace ThwaitesMethodData

/-- `ThwaitesMethod._calc_lambda`: `delta_m2_on_nu * self.dU_edx(x)`. -/
def calc_lambda (t : ThwaitesMethodData) (x delta_m2_on_nu : ℝ) : ℝ :=
  delta_m2_on_nu * t.dU_edx x

/-- `ThwaitesMethod.delta_m`: `np.sqrt(self._solution(x)[0]*self._nu)`. -/
def delta_m (t : ThwaitesMethodData) (x : ℝ) : ℝ :=
  Real.sqrt (t.sol x * t.nu)

/-- `ThwaitesMethod.H_d`: the shape function evaluated at the lambda of the
stored solution. -/
def H_d (t : ThwaitesMethodData) (x : ℝ) : ℝ :=
  t.model.H (t.calc_lambda x (t.sol x))

/-- `ThwaitesMethod.delta_d`: `self.delta_m(x)*self.H_d(x)`. -/
def delta_d (t : ThwaitesMethodData) (x : ℝ) : ℝ :=
  t.delta_m x * t.H_d x

/-- `ThwaitesMethodLinear._calc_F`: `0.45 - 6*lam`. -/
def linear_calc_F (t : ThwaitesMethodData) (x F : ℝ) : ℝ :=
  0.45 - 6 * t.calc_lambda x F

/-- `ThwaitesMethod._ode_impl` for the linear variant:
`self._calc_F(x, F)/(1e-3 + self.U_e(x))`. -/
def linear_ode_impl (t : ThwaitesMethodData) (x F : ℝ) : ℝ :=
  t.linear_calc_F x F / (1e-3 + t.U_e x)

end ThwaitesMethodData

/-- `ThwaitesMethod.set_initial_parameters`: raises `ValueError` when
`delta_m0 < 0`, otherwise builds the initial condition from `delta_m0`. -/
def ThwaitesMethod.set_initial_parameters (delta_m0 : ℝ) : Except String ℝ :=
  if delta_m0 < 0 then .error "Initial momentum thickness must be positive"
  else .ok delta_m0

/-! ## Embedding of src/pyBL/head_method.py -/

namespace HeadMethod

/-- The clamp performed at the top of `_H1` and `_H1p`:
`H_d[H_d <= 1.1] = 1.1001`. -/
def clamp_H_d (h : ℝ) : ℝ := if h ≤ 1.1 then 1.1001 else h

/-- Low branch of `_H1` (`H_d <= 1.6`): `3.3 + 0.8234/(H_d - 1.1)**1.287`. -/
def H1_low (h : ℝ) : ℝ := 3.3 + 0.8234 / (h - 1.1) ^ (1.287 : ℝ)

/-- High branch of `_H1` (`H_d > 1.6`):
`3.32254659218600974 + 1.5501/(H_d - 0.6778)**3.064`. -/
def H1_high (h : ℝ) : ℝ :=
  3.32254659218600974 + 1.5501 / (h - 0.6778) ^ (3.064 : ℝ)

/-- `HeadMethod._H1` for a scalar: clamp, then select the branch by
`np.piecewise(H_d, [H_d <= 1.6, H_d > 1.6], [H1_low, H1_high])`. -/
def H1 (h : ℝ) : ℝ :=
  if clamp_H_d h ≤ 1.6 then H1_low (clamp_H_d h) else H1_high (clamp_H_d h)

/-- Low branch of `_H1p`: `-a*c/(H_d - b)**(c+1)` with `a = 0.8234`,
`b = 1.1`, `c = 1.287`. -/
def H1p_low (h : ℝ) : ℝ := -0.8234 * 1.287 / (h - 1.1) ^ (1.287 + 1 : ℝ)

/-- High branch of `_H1p`: `-a*c/(H_d - b)**(c+1)` with `a = 1.5501`,
`b = 0.6778`, `c = 3.064`. -/
def H1p_high (h : ℝ) : ℝ := -1.5501 * 3.064 / (h - 0.6778) ^ (3.064 + 1 : ℝ)

/-- `HeadMethod._H1p` for a scalar: same clamp and branch split as `_H1`. -/
def H1p (h : ℝ) : ℝ :=
  if clamp_H_d h ≤ 1.6 then H1p_low (clamp_H_d h) else H1p_high (clamp_H_d h)

/-- The clamp performed at the top of `_S`: `H1[H1 <= 3] = 3.001`. -/
def clamp_H1 (s : ℝ) : ℝ := if s ≤ 3 then 3.001 else s

/-- `HeadMethod._S` for a scalar: clamp, then `0.0306/(H1-3)**0.6169`. -/
def S (s : ℝ) : ℝ := 0.0306 / (clamp_H1 s - 3) ^ (0.6169 : ℝ)

/-- Inner `H_d_low` of `_H_d` (applied when `H1 <= H1_break`): the analytic
inverse of the high `_H1` branch. -/
def H_d_low (y : ℝ) : ℝ :=
  0.6778 + (1.5501 / (y - 3.32254659218600974)) ^ (1 / (3.064 : ℝ))

/-- Inner `H_d_high` of `_H_d` (applied when `H1 > H1_break`): the analytic
inverse of the low `_H1` branch. -/
def H_d_high (y : ℝ) : ℝ :=
  1.1 + (0.8234 / (y - 3.3)) ^ (1 / (1.287 : ℝ))

/-- `H1_break = HeadMethod._H1(1.6)`, the branch split point of `_H_d`. -/
def H1_break : ℝ := H1 1.6

/-- `HeadMethod._H_d` for a scalar: raises `ValueError` (here: `none`) when
`H1 <= 3.32254659218600974`, otherwise selects the inverse branch by
comparing with `H1_break`. -/
def H_d_inv (y : ℝ) : Option ℝ :=
  if y ≤ 3.32254659218600974 then none
  else some (if y ≤ H1_break then H_d_low y else H_d_high y)

/-- `HeadMethod._H1` on an array argument.  The first component is the list
held by the caller's array after the call (mutated in place by the clamp);
the second is the returned array. -/
def H1_arr (xs : List ℝ) : List ℝ × List ℝ :=
  (xs.map clamp_H_d,
   (xs.map clamp_H_d).map fun h => if h ≤ 1.6 then H1_low h else H1_high h)

/-- `HeadMethod._H1p` on an array argument, with the caller-visible mutated
array as first component. -/
def H1p_arr (xs : List ℝ) : List ℝ × List ℝ :=
  (xs.map clamp_H_d,
   (xs.map clamp_H_d).map fun h => if h ≤ 1.6 then H1p_low h else H1p_high h)

/-- `HeadMethod._S` on an array argument, with the caller-visible mutated
array as first component. -/
def S_arr (xs : List ℝ) : List ℝ × List ℝ :=
  (xs.map clamp_H1,
   (xs.map clamp_H1).map fun s => 0.0306 / (s - 3) ^ (0.6169 : ℝ))

end HeadMethod

/-- State of a configured `HeadMethod` instance: viscosity, velocity profile,
and the stored two-component solution `x ↦ (delta_m(x), H_d(x))`. -/
structure HeadMethodData where
  nu : ℝ
  U_e : ℝ → ℝ
  dU_edx : ℝ → ℝ
  sol : ℝ → ℝ × ℝ

namespace HeadMethodData

/-- `HeadMethod.delta_m`: `self._solution(x)[0]`. -/
def delta_m (m : HeadMethodData) (x : ℝ) : ℝ := (m.sol x).1

/-- `HeadMethod.H_d`: `self._solution(x)[1]`. -/
def H_d (m : HeadMethodData) (x : ℝ) : ℝ := (m.sol x).2

/-- `HeadMethod.delta_d`: `self.delta_m(x)*self.H_d(x)`. -/
def delta_d (m : HeadMethodData) (x : ℝ) : ℝ := m.delta_m x * m.H_d x

/-- `HeadMethod._ode_impl` for a scalar state `y = (delta_m, H_d)`.  The
skin-friction correlation `c_f_LudwiegTillman` is an external collaborator
(module `pyBL.skin_friction`), passed here as the parameter `c_f`. -/
def ode_impl (m : HeadMethodData) (c_f : ℝ → ℝ → ℝ) (x : ℝ) (y : ℝ × ℝ) :
    ℝ × ℝ :=
  let delta_m := y.1
  let H_d := if y.2 < 1.11 then 1.11 else y.2
  let U_e := if |m.U_e x| < 0.001 then 0.001 else m.U_e x
  let dU_edx := m.dU_edx x
  let Re_delta_m := U_e * delta_m / m.nu
  let c_fv := c_f Re_delta_m H_d
  let H1v := HeadMethod.H1 H_d
  let H1pv := HeadMethod.H1p H_d
  let yp0 := 0.5 * c_fv - delta_m * (2 + H_d) * dU_edx / U_e
  (yp0,
   (U_e * HeadMethod.S H1v - U_e * yp0 * H1v - dU_edx * delta_m * H1v) /
     (H1pv * U_e * delta_m))

end HeadMethodData

/-- `HeadMethod.set_solution_parameters`: validates viscosity, initial
momentum thickness and initial shape factor in source order, raising
`ValueError` (here `.error`) at the first failing check, otherwise storing
`(delta_m0, H_d0, nu)`. -/
def HeadMethod.set_solution_parameters (_x0 _x_end delta_m0 H_d0 nu : ℝ) :
    Except String (ℝ × ℝ × ℝ) :=
  if nu < 0 then .error "Viscosity must be positive"
  else if delta_m0 < 0 then .error "Initial momentum thickness must be positive"
  else if H_d0 ≤ 1 then
    .error "Initial displacement shape factor must be greater than one"
  else .ok (delta_m0, H_d0, nu)

/-! ## C2: where the clamp is applied inside the nonlinear F term -/

/-- C2 counterexample: for the Cebeci–Bradshaw model at `lam = 0.2` (outside
the valid domain `[-0.1, 0.1]`) the source's `F` does not equal the spec's
formula with the clamped lambda used uniformly: the factor multiplying
`(H+2)` stays the raw `0.2`, so `F(0.2) = -0.99696` while the claim's
formula gives `-0.13948`. -/
theorem thwaitesF_clamp_not_uniform :
    thwaitesCB.F 0.2 ≠ thwaitesCB.F_spec 0.2 := by
  have hcr : thwaitesCB.check_range 0.2 = 0.1 := by
    unfold ThwaitesFunctions.check_range thwaitesCB
    rw [if_neg, if_pos]
    · exact EReal.toReal_coe 0.1
    · exact EReal.coe_lt_coe_iff.mpr (by norm_num)
    · rw [not_lt]
      exact EReal.coe_le_coe_iff.mpr (by norm_num)
  unfold ThwaitesFunctions.F ThwaitesFunctions.F_spec ThwaitesFunctions.S
    ThwaitesFunctions.H
  rw [hcr]
  show 2 * ((if (0.1 : ℝ) < 0 then _ else _) -
      0.2 * ((if (0.1 : ℝ) < 0 then _ else _) + 2)) ≠
    2 * ((if (0.1 : ℝ) < 0 then _ else _) -
      0.1 * ((if (0.1 : ℝ) < 0 then _ else _) + 2))
  rw [if_neg (by norm_num), if_neg (by norm_num)]
  norm_num

/-- C2 (amended): for every closure model and every lambda, the nonlinear F
term equals `2*[S(lam_c) - lam*(H(lam_c)+2)]` where the clamped `lam_c` is
used inside `S` and `H` but the multiplicative occurrence of lambda is the
raw, unclamped argument. -/
theorem thwaitesF_formula (m : ThwaitesFunctions) (lam : ℝ) :
    m.F lam =
      2 * (m.S_fun (m.check_range lam) -
        lam * (m.H_fun (m.check_range lam) + 2)) := rfl

/-! ## C6: displacement thickness is the product of momentum thickness and
shape factor -/

/-- C6: for every configured method state and every position, the
displacement-thickness query returns exactly momentum thickness times
displacement shape factor, for both the Thwaites and the Head method. -/
theorem delta_d_eq_delta_m_mul_H_d :
    (∀ (t : ThwaitesMethodData) (x : ℝ), t.delta_d x = t.delta_m x * t.H_d x)
    ∧ ∀ (m : HeadMethodData) (x : ℝ), m.delta_d x = m.delta_m x * m.H_d x :=
  ⟨fun _ _ => rfl, fun _ _ => rfl⟩

/-! ## C7: validation in the configuration setters -/

/-- C7: the code accepts a zero initial momentum thickness.  Both setters
check `delta_m0 < 0` only, so the failing input `delta_m0 = 0` is stored
without a `ValueError`, although the claim (and the code's own error
message, "Initial momentum thickness must be positive") requires non-positive
values to be rejected.  The other validations behave as claimed (`nu < 0`
and `H_d0 <= 1` raise). -/
theorem setters_accept_zero_delta_m0 :
    HeadMethod.set_solution_parameters 0 1 0 1.5 1e-5 = .ok (0, 1.5, 1e-5)
    ∧ ThwaitesMethod.set_initial_parameters 0 = .ok 0
    ∧ HeadMethod.set_solution_parameters 0 1 0.001 1.5 (-1) =
        .error "Viscosity must be positive"
    ∧ HeadMethod.set_solution_parameters 0 1 (-0.001) 1.5 1e-5 =
        .error "Initial momentum thickness must be positive"
    ∧ HeadMethod.set_solution_parameters 0 1 0.001 1 1e-5 =
        .error "Initial displacement shape factor must be greater than one"
    ∧ ThwaitesMethod.set_initial_parameters (-0.001) =
        .error "Initial momentum thickness must be positive" := by
  refine ⟨?_, ?_, ?_, ?_, ?_, ?_⟩ <;>
    simp [HeadMethod.set_solution_parameters,
      ThwaitesMethod.set_initial_parameters] <;> norm_num

/-! ## C1: the Head right-hand side -/

/-- C1: for every state `(delta_m, H_d)` with `delta_m` nonzero,
`HeadMethod._ode_impl` returns exactly the pair given by
`d delta_m/dx = 0.5*c_f - delta_m*(2+H_d)*dU_edx/U_e` and
`d H_d/dx = (U_e*S(H1) - U_e*(d delta_m/dx)*H1 - dU_edx*delta_m*H1) /
(H1p*U_e*delta_m)`, where `H_d` is first clamped below `1.11`, `U_e` is
floored at `1e-3` in magnitude, and `c_f`, `H1`, `H1p` are evaluated at the
clamped values. -/
theorem head_ode_impl_formula (m : HeadMethodData) (c_f : ℝ → ℝ → ℝ) (x : ℝ)
    (y : ℝ × ℝ) (hdm : y.1 ≠ 0) :
    m.ode_impl c_f x y =
      ((fun hc ue du =>
          (0.5 * c_f (ue * y.1 / m.nu) hc - y.1 * (2 + hc) * du / ue,
           (ue * HeadMethod.S (HeadMethod.H1 hc) -
              ue * (0.5 * c_f (ue * y.1 / m.nu) hc -
                y.1 * (2 + hc) * du / ue) * HeadMethod.H1 hc -
              du * y.1 * HeadMethod.H1 hc) /
             (HeadMethod.H1p hc * ue * y.1)))
        (if y.2 < 1.11 then 1.11 else y.2)
        (if |m.U_e x| < 0.001 then 0.001 else m.U_e x)
        (m.dU_edx x)) := rfl

/-- Data for the C1 witness: a concrete configured Head method state. -/
def headExample : HeadMethodData where
  nu := 1
  U_e := fun _ => 1
  dU_edx := fun _ => 0
  sol := fun _ => (1, 1.5)

/-- Witness for C1 at the concrete state `(1, 1.5)` (so `delta_m = 1 ≠ 0`). -/
theorem head_ode_impl_formula_witness :
    ((1 : ℝ), (1.5 : ℝ)).1 ≠ 0 ∧
      headExample.ode_impl (fun _ _ => 0.01) 0 (1, 1.5) =
        ((fun hc ue du =>
            (0.5 * 0.01 - (1 : ℝ) * (2 + hc) * du / ue,
             (ue * HeadMethod.S (HeadMethod.H1 hc) -
                ue * (0.5 * 0.01 - 1 * (2 + hc) * du / ue) *
                  HeadMethod.H1 hc - du * 1 * HeadMethod.H1 hc) /
               (HeadMethod.H1p hc * ue * 1)))
          (if ((1 : ℝ), (1.5 : ℝ)).2 < 1.11 then 1.11 else 1.5)
          (if |headExample.U_e 0| < 0.001 then 0.001 else headExample.U_e 0)
          (headExample.dU_edx 0)) :=
  ⟨one_ne_zero, head_ode_impl_formula headExample (fun _ _ => 0.01) 0 (1, 1.5)
    one_ne_zero⟩

/-! ## C9: the clamp inside the entrainment rate `_S` -/

/-- C9 counterexample: the claim says every `H1` below `3.001` is replaced by
`3.001`, so the result never exceeds `0.0306/0.001^0.6169`.  The code only
clamps `H1 <= 3`; at `H1 = 3.0005` the raw value is used and the result
exceeds the claimed ceiling. -/
theorem head_S_exceeds_claimed_bound :
    ¬ HeadMethod.S 3.0005 ≤ 0.0306 / (0.001 : ℝ) ^ (0.6169 : ℝ) := by
  rw [not_le]
  unfold HeadMethod.S HeadMethod.clamp_H1
  rw [if_neg (by norm_num)]
  have hbase : ((3.0005 : ℝ) - 3) = 0.0005 := by norm_num
  rw [hbase]
  have hlt : (0.0005 : ℝ) ^ (0.6169 : ℝ) < (0.001 : ℝ) ^ (0.6169 : ℝ) :=
    Real.rpow_lt_rpow (by norm_num) (by norm_num) (by norm_num)
  exact div_lt_div_of_pos_left (by norm_num)
    (Real.rpow_pos_of_pos (by norm_num) _) hlt

/-- C9 (amended): `_S` returns `0.0306/(H1c - 3)^0.6169` where `H1c` replaces
every input at or below `3` (not: below `3.001`) by `3.001`; the clamped
base is never the singular value `3`; on inputs at or below `3` the result
equals `0.0306/0.001^0.6169`, and on inputs at or above `3.001` it never
exceeds that value (inputs strictly between `3` and `3.001` may exceed it). -/
theorem head_S_formula (s : ℝ) :
    HeadMethod.S s = 0.0306 / ((if s ≤ 3 then 3.001 else s) - 3) ^ (0.6169 : ℝ)
    ∧ (if s ≤ 3 then (3.001 : ℝ) else s) ≠ 3
    ∧ (s ≤ 3 → HeadMethod.S s = 0.0306 / (0.001 : ℝ) ^ (0.6169 : ℝ))
    ∧ (3.001 ≤ s →
        HeadMethod.S s ≤ 0.0306 / (0.001 : ℝ) ^ (0.6169 : ℝ)) := by
  refine ⟨rfl, ?_, ?_, ?_⟩
  · rcases le_or_lt s 3 with h | h
    · rw [if_pos h]; norm_num
    · rw [if_neg (not_le.mpr h)]; exact ne_of_gt h
  · intro h
    unfold HeadMethod.S HeadMethod.clamp_H1
    rw [if_pos h]
    norm_num
  · intro h
    unfold HeadMethod.S HeadMethod.clamp_H1
    rw [if_neg (by linarith)]
    have hpow : (0.001 : ℝ) ^ (0.6169 : ℝ) ≤ (s - 3) ^ (0.6169 : ℝ) :=
      Real.rpow_le_rpow (by norm_num) (by linarith) (by norm_num)
    exact div_le_div_of_nonneg_left (by norm_num)
      (Real.rpow_pos_of_pos (by norm_num) _) hpow

/-- Witness for C9 at `s = 2` (clamped branch) and `s = 4` (bound branch). -/
theorem head_S_formula_witness :
    HeadMethod.S 2 = 0.0306 / (0.001 : ℝ) ^ (0.6169 : ℝ)
    ∧ HeadMethod.S 4 ≤ 0.0306 / (0.001 : ℝ) ^ (0.6169 : ℝ) :=
  ⟨(head_S_formula 2).2.2.1 (by norm_num),
   (head_S_formula 4).2.2.2 (by norm_num)⟩

/-! ## C10: caller-visible in-place clamping of array arguments -/

/-- C10: when `_H1`, `_H1p` or `_S` receives an array, the caller's array
after the call holds the entrywise clamped values (out-of-range entries
overwritten with `1.1001` resp. `3.001`, in-range entries untouched), and
the returned array is computed from that mutated array. -/
theorem head_array_clamp_in_place (xs : List ℝ) :
    (HeadMethod.H1_arr xs).1 = xs.map HeadMethod.clamp_H_d
    ∧ (HeadMethod.H1p_arr xs).1 = xs.map HeadMethod.clamp_H_d
    ∧ (HeadMethod.S_arr xs).1 = xs.map HeadMethod.clamp_H1
    ∧ (HeadMethod.H1_arr xs).2 = ((HeadMethod.H1_arr xs).1).map
        (fun h => if h ≤ 1.6 then HeadMethod.H1_low h else HeadMethod.H1_high h)
    ∧ (HeadMethod.S_arr xs).2 = ((HeadMethod.S_arr xs).1).map
        (fun s => 0.0306 / (s - 3) ^ (0.6169 : ℝ))
    ∧ (∀ h : ℝ, 1.1 < h → HeadMethod.clamp_H_d h = h)
    ∧ (∀ h : ℝ, h ≤ 1.1 → HeadMethod.clamp_H_d h = 1.1001)
    ∧ (∀ s : ℝ, 3 < s → HeadMethod.clamp_H1 s = s)
    ∧ ∀ s : ℝ, s ≤ 3 → HeadMethod.clamp_H1 s = 3.001 := by
  refine ⟨rfl, rfl, rfl, rfl, rfl, ?_, ?_, ?_, ?_⟩
  · intro h hh; exact if_neg (not_le.mpr hh)
  · intro h hh; exact if_pos hh
  · intro s hs; exact if_neg (not_le.mpr hs)
  · intro s hs; exact if_pos hs

/-- Witness for C10 on the concrete array `[1.0, 1.5]`: the out-of-range
entry `1.0` is overwritten with `1.1001` and the in-range entry `1.5` is
left unchanged. -/
theorem head_array_clamp_in_place_witness :
    HeadMethod.clamp_H_d 1.5 = 1.5 ∧ HeadMethod.clamp_H_d 1.0 = 1.1001
    ∧ HeadMethod.clamp_H1 3.5 = 3.5 ∧ HeadMethod.clamp_H1 2 = 3.001 :=
  ⟨(head_array_clamp_in_place []).2.2.2.2.2.1 1.5 (by norm_num),
   (head_array_clamp_in_place []).2.2.2.2.2.2.1 1.0 (by norm_num),
   (head_array_clamp_in_place []).2.2.2.2.2.2.2.1 3.5 (by norm_num),
   (head_array_clamp_in_place []).2.2.2.2.2.2.2.2 2 (by norm_num)⟩

/-! ## C8: clamping versus raising in the correlation functions -/

/-- C8 counterexample: the claim says no correlation function ever raises for
an out-of-range argument, but `HeadMethod._H_d` raises a `ValueError`
(modelled as `none`) for an entrainment shape factor at or below
`3.32254659218600974`, for example at `H1 = 3`. -/
theorem head_H_d_inv_raises : HeadMethod.H_d_inv 3 = none := by
  unfold HeadMethod.H_d_inv
  rw [if_pos (by norm_num)]

/-- C8 (amended): out-of-range inputs are silently clamped and evaluation
proceeds in the Thwaites range check (to the nearest domain boundary) and in
Head's `_H1`, `_H1p` and `_S` (to `1.1001` resp. `3.001`), but the inverse
`_H_d` is the exception: it raises `ValueError` for `H1` at or below
`3.32254659218600974` and evaluates otherwise. -/
theorem correlation_clamping_policy :
    (∀ s : ℝ, s ≤ 3 → HeadMethod.S s = HeadMethod.S 3.001)
    ∧ (∀ h : ℝ, h ≤ 1.1 →
        HeadMethod.H1 h = HeadMethod.H1 1.1001 ∧
          HeadMethod.H1p h = HeadMethod.H1p 1.1001)
    ∧ (∀ lam : ℝ, PyBL.thwaitesCB.check_range lam =
        max (-0.1) (min 0.1 lam))
    ∧ (∀ y : ℝ, y ≤ 3.32254659218600974 → HeadMethod.H_d_inv y = none)
    ∧ ∀ y : ℝ, 3.32254659218600974 < y → (HeadMethod.H_d_inv y).isSome := by
  refine ⟨?_, ?_, ?_, ?_, ?_⟩
  · intro s hs
    unfold HeadMethod.S HeadMethod.clamp_H1
    rw [if_pos hs, if_neg (by norm_num)]
  · intro h hh
    have hc : HeadMethod.clamp_H_d h = HeadMethod.clamp_H_d 1.1001 := by
      unfold HeadMethod.clamp_H_d
      rw [if_pos hh, if_neg (by norm_num)]
    constructor
    · unfold HeadMethod.H1; rw [hc]
    · unfold HeadMethod.H1p; rw [hc]
  · intro lam
    unfold ThwaitesFunctions.check_range thwaitesCB
    rcases lt_or_le lam (-0.1) with h | h
    · rw [if_pos (EReal.coe_lt_coe_iff.mpr h), EReal.toReal_coe]
      exact (max_eq_left ((min_le_right _ _).trans h.le)).symm
    · rw [if_neg (by rw [not_lt]; exact EReal.coe_le_coe_iff.mpr h)]
      rcases lt_or_le (0.1 : ℝ) lam with h2 | h2
      · rw [if_pos (EReal.coe_lt_coe_iff.mpr h2), EReal.toReal_coe]
        rw [min_eq_left h2.le, max_eq_right (show (-0.1 : ℝ) ≤ 0.1 by norm_num)]
      · rw [if_neg (by rw [not_lt]; exact EReal.coe_le_coe_iff.mpr h2)]
        rw [min_eq_right h2, max_eq_right h]
  · intro y hy
    unfold HeadMethod.H_d_inv
    rw [if_pos hy]
  · intro y hy
    unfold HeadMethod.H_d_inv
    rw [if_neg (not_le.mpr hy)]
    rfl

/-- Witness for C8 at concrete inputs: `_S` clamps at `2`, `_H1` clamps at
`1.05`, the Thwaites range check clamps `0.2` to the boundary `0.1`, and
`_H_d` raises at `3.1` but evaluates at `5`. -/
theorem correlation_clamping_policy_witness :
    HeadMethod.S 2 = HeadMethod.S 3.001
    ∧ HeadMethod.H1 1.05 = HeadMethod.H1 1.1001
    ∧ PyBL.thwaitesCB.check_range 0.2 = max (-0.1) (min 0.1 0.2)
    ∧ HeadMethod.H_d_inv 3.1 = none
    ∧ (HeadMethod.H_d_inv 5).isSome :=
  ⟨correlation_clamping_policy.1 2 (by norm_num),
   (correlation_clamping_policy.2.1 1.05 (by norm_num)).1,
   correlation_clamping_policy.2.2.1 0.2,
   correlation_clamping_policy.2.2.2.1 3.1 (by norm_num),
   correlation_clamping_policy.2.2.2.2 5 (by norm_num)⟩

/-! ## Rational bracketing of the fractional powers

The correlation fits use real powers with decimal exponents.  To settle the
numerical claims we bracket each power between rational bounds: for a
positive base, `q ≤ x^(m/n)` reduces to the rational inequality
`q^n ≤ x^m`, which `norm_num` certifies exactly. -/

lemma le_rpow_div {x q : ℝ} (m n : ℕ) (hx : 0 < x) (hq : 0 ≤ q) (hn : n ≠ 0)
    (h : q ^ n ≤ x ^ m) : q ≤ x ^ ((m : ℝ) / (n : ℝ)) := by
  have key : x ^ ((m : ℝ) / (n : ℝ)) = (x ^ m) ^ ((n : ℝ)⁻¹) := by
    rw [div_eq_mul_inv, ← Real.rpow_natCast x m, ← Real.rpow_mul hx.le]
  calc q = (q ^ n) ^ ((n : ℝ)⁻¹) := (Real.pow_rpow_inv_natCast hq hn).symm
    _ ≤ (x ^ m) ^ ((n : ℝ)⁻¹) :=
        Real.rpow_le_rpow (pow_nonneg hq n) h (by positivity)
    _ = x ^ ((m : ℝ) / (n : ℝ)) := key.symm

lemma rpow_div_le {x q : ℝ} (m n : ℕ) (hx : 0 < x) (hq : 0 ≤ q) (hn : n ≠ 0)
    (h : x ^ m ≤ q ^ n) : x ^ ((m : ℝ) / (n : ℝ)) ≤ q := by
  have key : x ^ ((m : ℝ) / (n : ℝ)) = (x ^ m) ^ ((n : ℝ)⁻¹) := by
    rw [div_eq_mul_inv, ← Real.rpow_natCast x m, ← Real.rpow_mul hx.le]
  calc x ^ ((m : ℝ) / (n : ℝ)) = (x ^ m) ^ ((n : ℝ)⁻¹) := key
    _ ≤ (q ^ n) ^ ((n : ℝ)⁻¹) :=
        Real.rpow_le_rpow (pow_nonneg hx.le m) h (by positivity)
    _ = q := Real.pow_rpow_inv_natCast hq hn

/-- Lower rational bound for `0.5^1.287`, the power appearing in
`H1_low(1.6)`. -/
lemma rpowA_lb : (0.409802303818758558 : ℝ) ≤ (0.5 : ℝ) ^ (1.287 : ℝ) := by
  rw [show (1.287 : ℝ) = ((1287 : ℕ) : ℝ) / ((1000 : ℕ) : ℝ) by norm_num]
  exact le_rpow_div 1287 1000 (by norm_num) (by norm_num) (by norm_num)
    (by norm_num)

/-- Upper rational bound for `0.5^1.287`. -/
lemma rpowA_ub : (0.5 : ℝ) ^ (1.287 : ℝ) ≤ 0.409802303818758563 := by
  rw [show (1.287 : ℝ) = ((1287 : ℕ) : ℝ) / ((1000 : ℕ) : ℝ) by norm_num]
  exact rpow_div_le 1287 1000 (by norm_num) (by norm_num) (by norm_num)
    (by norm_num)

/-- Lower rational bound for `0.9222^3.064`, the power appearing in
`H1_high(1.6)`. -/
lemma rpowB_lb : (0.780232723906096747 : ℝ) ≤ (0.9222 : ℝ) ^ (3.064 : ℝ) := by
  rw [show (3.064 : ℝ) = ((383 : ℕ) : ℝ) / ((125 : ℕ) : ℝ) by norm_num]
  exact le_rpow_div 383 125 (by norm_num) (by norm_num) (by norm_num)
    (by norm_num)

/-- Upper rational bound for `0.9222^3.064`. -/
lemma rpowB_ub : (0.9222 : ℝ) ^ (3.064 : ℝ) ≤ 0.780232723906096752 := by
  rw [show (3.064 : ℝ) = ((383 : ℕ) : ℝ) / ((125 : ℕ) : ℝ) by norm_num]
  exact rpow_div_le 383 125 (by norm_num) (by norm_num) (by norm_num)
    (by norm_num)

lemma rpowA_pos : (0 : ℝ) < (0.5 : ℝ) ^ (1.287 : ℝ) :=
  Real.rpow_pos_of_pos (by norm_num) _

lemma rpowB_pos : (0 : ℝ) < (0.9222 : ℝ) ^ (3.064 : ℝ) :=
  Real.rpow_pos_of_pos (by norm_num) _

/-! ## C4: continuity of `_H1` at the breakpoint `H_d = 1.6` -/

/-- C4: the two piecewise inverse-power-law branches of `_H1` agree at the
breakpoint `H_d = 1.6` to within `1e-9` (the constant `3.32254659218600974`
of the high branch was chosen to make the true gap about `6e-16`). -/
theorem H1_continuous_at_breakpoint :
    |HeadMethod.H1_low 1.6 - HeadMethod.H1_high 1.6| ≤ 1e-9 := by
  unfold HeadMethod.H1_low HeadMethod.H1_high
  rw [show (1.6 : ℝ) - 1.1 = 0.5 by norm_num,
    show (1.6 : ℝ) - 0.6778 = 0.9222 by norm_num]
  have hu1 : (0.8234 : ℝ) / 0.409802303818758563 ≤
      0.8234 / (0.5 : ℝ) ^ (1.287 : ℝ) :=
    div_le_div_of_nonneg_left (by norm_num) rpowA_pos rpowA_ub
  have hu2 : (0.8234 : ℝ) / (0.5 : ℝ) ^ (1.287 : ℝ) ≤
      0.8234 / 0.409802303818758558 :=
    div_le_div_of_nonneg_left (by norm_num) (by norm_num) rpowA_lb
  have hv1 : (1.5501 : ℝ) / 0.780232723906096752 ≤
      1.5501 / (0.9222 : ℝ) ^ (3.064 : ℝ) :=
    div_le_div_of_nonneg_left (by norm_num) rpowB_pos rpowB_ub
  have hv2 : (1.5501 : ℝ) / (0.9222 : ℝ) ^ (3.064 : ℝ) ≤
      1.5501 / 0.780232723906096747 :=
    div_le_div_of_nonneg_left (by norm_num) (by norm_num) rpowB_lb
  have e1 : (3.3 : ℝ) + 0.8234 / 0.409802303818758563 -
      (3.32254659218600974 + 1.5501 / 0.780232723906096747) ≥ -1e-9 := by
    norm_num
  have e2 : (3.3 : ℝ) + 0.8234 / 0.409802303818758558 -
      (3.32254659218600974 + 1.5501 / 0.780232723906096752) ≤ 1e-9 := by
    norm_num
  rw [abs_le]
  constructor <;> linarith

/-! ## C5: `_H_d` inverts `_H1` -/

lemma H1_break_eq :
    HeadMethod.H1_break = 3.3 + 0.8234 / (0.5 : ℝ) ^ (1.287 : ℝ) := by
  have hcl : HeadMethod.clamp_H_d 1.6 = 1.6 := by
    unfold HeadMethod.clamp_H_d
    rw [if_neg (by norm_num)]
  unfold HeadMethod.H1_break HeadMethod.H1
  rw [hcl, if_pos (by norm_num)]
  unfold HeadMethod.H1_low
  rw [show (1.6 : ℝ) - 1.1 = 0.5 by norm_num]

/-- Lower bound for the denominator `H1_break - 3.32254659218600974` used by
the low inverse branch. -/
lemma H1_break_den_lb :
    (1.986714928130287567 : ℝ) ≤
      HeadMethod.H1_break - 3.32254659218600974 := by
  rw [H1_break_eq]
  have h1 : (0.8234 : ℝ) / 0.409802303818758563 ≤
      0.8234 / (0.5 : ℝ) ^ (1.287 : ℝ) :=
    div_le_div_of_nonneg_left (by norm_num) rpowA_pos rpowA_ub
  have h2 : (1.986714928130287567 : ℝ) ≤
      3.3 + 0.8234 / 0.409802303818758563 - 3.32254659218600974 := by norm_num
  linarith

/-- Upper bound for the denominator `H1_break - 3.32254659218600974`. -/
lemma H1_break_den_ub :
    HeadMethod.H1_break - 3.32254659218600974 ≤
      (1.986714928130287592 : ℝ) := by
  rw [H1_break_eq]
  have h1 : (0.8234 : ℝ) / (0.5 : ℝ) ^ (1.287 : ℝ) ≤
      0.8234 / 0.409802303818758558 :=
    div_le_div_of_nonneg_left (by norm_num) (by norm_num) rpowA_lb
  have h2 : (3.3 : ℝ) + 0.8234 / 0.409802303818758558 - 3.32254659218600974 ≤
      1.986714928130287592 := by norm_num
  linarith

lemma H1_break_den_pos :
    (0 : ℝ) < HeadMethod.H1_break - 3.32254659218600974 :=
  lt_of_lt_of_le (by norm_num) H1_break_den_lb

/-- Lower bound for the value the low inverse branch produces at
`H1_break`. -/
lemma roundtrip_T_lb :
    (0.922200000000000089 : ℝ) ≤
      (1.5501 / (HeadMethod.H1_break - 3.32254659218600974)) ^
        (1 / (3.064 : ℝ)) := by
  have hb0lo : (0.780232723906096988 : ℝ) ≤
      1.5501 / (HeadMethod.H1_break - 3.32254659218600974) := by
    have h1 : (0.780232723906096988 : ℝ) ≤
        1.5501 / 1.986714928130287592 := by norm_num
    have h2 : (1.5501 : ℝ) / 1.986714928130287592 ≤
        1.5501 / (HeadMethod.H1_break - 3.32254659218600974) :=
      div_le_div_of_nonneg_left (by norm_num) H1_break_den_pos H1_break_den_ub
    linarith
  rw [show (1 / (3.064 : ℝ)) = ((125 : ℕ) : ℝ) / ((383 : ℕ) : ℝ) by norm_num]
  have s1 : (0.922200000000000089 : ℝ) ≤
      (0.780232723906096988 : ℝ) ^ (((125 : ℕ) : ℝ) / ((383 : ℕ) : ℝ)) :=
    le_rpow_div 125 383 (by norm_num) (by norm_num) (by norm_num) (by norm_num)
  have s2 := Real.rpow_le_rpow
    (show (0 : ℝ) ≤ 0.780232723906096988 by norm_num) hb0lo
    (show (0 : ℝ) ≤ ((125 : ℕ) : ℝ) / ((383 : ℕ) : ℝ) by positivity)
  linarith

/-- Upper bound for the value the low inverse branch produces at
`H1_break`. -/
lemma roundtrip_T_ub :
    (1.5501 / (HeadMethod.H1_break - 3.32254659218600974)) ^
        (1 / (3.064 : ℝ)) ≤ 0.922200000000000099 := by
  have hb0hi : 1.5501 / (HeadMethod.H1_break - 3.32254659218600974) ≤
      (0.780232723906096999 : ℝ) := by
    have h1 : (1.5501 : ℝ) / (HeadMethod.H1_break - 3.32254659218600974) ≤
        1.5501 / 1.986714928130287567 :=
      div_le_div_of_nonneg_left (by norm_num) (by norm_num) H1_break_den_lb
    have h2 : (1.5501 : ℝ) / 1.986714928130287567 ≤
        0.780232723906096999 := by norm_num
    linarith
  rw [show (1 / (3.064 : ℝ)) = ((125 : ℕ) : ℝ) / ((383 : ℕ) : ℝ) by norm_num]
  have s2 := Real.rpow_le_rpow
    (le_of_lt (div_pos (by norm_num) H1_break_den_pos)) hb0hi
    (show (0 : ℝ) ≤ ((125 : ℕ) : ℝ) / ((383 : ℕ) : ℝ) by positivity)
  have s1 : (0.780232723906096999 : ℝ) ^
      (((125 : ℕ) : ℝ) / ((383 : ℕ) : ℝ)) ≤ 0.922200000000000099 :=
    rpow_div_le 125 383 (by norm_num) (by norm_num) (by norm_num) (by norm_num)
  linarith

set_option maxHeartbeats 1000000 in
/-- C5: for every displacement shape factor strictly above `1.1`, the
declared inverse recovers it through the round trip
`_H_d(_H1(H_d))` to within `1e-9` (exactly, except on the measure-zero sliver
at the branch break `1.6` where the two branches differ by about `6e-16`),
and in particular `_H_d` never raises on a value produced by `_H1`. -/
theorem H_d_inverts_H1 (h : ℝ) (hh : 1.1 < h) :
    ∃ r, HeadMethod.H_d_inv (HeadMethod.H1 h) = some r ∧ |r - h| ≤ 1e-9 := by
  have hclamp : HeadMethod.clamp_H_d h = h := if_neg (not_le.mpr hh)
  rcases lt_trichotomy h 1.6 with hlt | heq | hgt
  · -- strictly inside the low branch: the round trip is exact
    have hbase_pos : (0 : ℝ) < h - 1.1 := by linarith
    have hpow_pos : (0 : ℝ) < (h - 1.1) ^ (1.287 : ℝ) :=
      Real.rpow_pos_of_pos hbase_pos _
    have hpow_lt : (h - 1.1) ^ (1.287 : ℝ) < (0.5 : ℝ) ^ (1.287 : ℝ) :=
      Real.rpow_lt_rpow hbase_pos.le (by linarith) (by norm_num)
    have hH1h : HeadMethod.H1 h = HeadMethod.H1_low h := by
      unfold HeadMethod.H1
      rw [hclamp, if_pos hlt.le]
    have hval : HeadMethod.H1 h = 3.3 + 0.8234 / (h - 1.1) ^ (1.287 : ℝ) := by
      rw [hH1h]; rfl
    have hgtbreak : HeadMethod.H1_break < HeadMethod.H1 h := by
      rw [hval, H1_break_eq]
      have := div_lt_div_of_pos_left (show (0 : ℝ) < 0.8234 by norm_num)
        hpow_pos hpow_lt
      linarith
    refine ⟨h, ?_, by rw [sub_self, abs_zero]; norm_num⟩
    unfold HeadMethod.H_d_inv
    rw [if_neg (by rw [not_le]; linarith [H1_break_den_lb]),
      if_neg (not_le.mpr hgtbreak)]
    congr 1
    unfold HeadMethod.H_d_high
    rw [hval,
      show (3.3 : ℝ) + 0.8234 / (h - 1.1) ^ (1.287 : ℝ) - 3.3 =
        0.8234 / (h - 1.1) ^ (1.287 : ℝ) by ring]
    have hdd : (0.8234 : ℝ) / (0.8234 / (h - 1.1) ^ (1.287 : ℝ)) =
        (h - 1.1) ^ (1.287 : ℝ) := by
      field_simp
    rw [hdd, one_div, Real.rpow_rpow_inv hbase_pos.le (by norm_num)]
    ring
  · -- the break point: the low inverse branch is applied to `H1_break`
    subst heq
    have hH1 : HeadMethod.H1 1.6 = HeadMethod.H1_break := rfl
    refine ⟨HeadMethod.H_d_low HeadMethod.H1_break, ?_, ?_⟩
    · unfold HeadMethod.H_d_inv
      rw [hH1, if_neg (by rw [not_le]; linarith [H1_break_den_lb]),
        if_pos le_rfl]
    · unfold HeadMethod.H_d_low
      rw [abs_le]
      constructor <;> linarith [roundtrip_T_lb, roundtrip_T_ub]
  · -- the high branch
    have hb2 : (0 : ℝ) < h - 0.6778 := by linarith
    have hz_pos : (0 : ℝ) < (h - 0.6778) ^ (3.064 : ℝ) :=
      Real.rpow_pos_of_pos hb2 _
    have hH1h : HeadMethod.H1 h = HeadMethod.H1_high h := by
      unfold HeadMethod.H1
      rw [hclamp, if_neg (not_le.mpr hgt)]
    have hval : HeadMethod.H1 h =
        3.32254659218600974 + 1.5501 / (h - 0.6778) ^ (3.064 : ℝ) := by
      rw [hH1h]; rfl
    have hnotraise : ¬ HeadMethod.H1 h ≤ 3.32254659218600974 := by
      rw [not_le, hval]
      have := div_pos (show (0 : ℝ) < 1.5501 by norm_num) hz_pos
      linarith
    by_cases hc : HeadMethod.H1 h ≤ HeadMethod.H1_break
    · -- below the break: the low inverse branch is the exact inverse
      refine ⟨h, ?_, by rw [sub_self, abs_zero]; norm_num⟩
      unfold HeadMethod.H_d_inv
      rw [if_neg hnotraise, if_pos hc]
      congr 1
      unfold HeadMethod.H_d_low
      rw [hval,
        show (3.32254659218600974 : ℝ) +
            1.5501 / (h - 0.6778) ^ (3.064 : ℝ) - 3.32254659218600974 =
          1.5501 / (h - 0.6778) ^ (3.064 : ℝ) by ring]
      have hdd : (1.5501 : ℝ) / (1.5501 / (h - 0.6778) ^ (3.064 : ℝ)) =
          (h - 0.6778) ^ (3.064 : ℝ) := by
        field_simp
      rw [hdd, one_div, Real.rpow_rpow_inv hb2.le (by norm_num)]
      ring
    · -- above the break: wrong inverse branch, but `h` is within `2.3e-16`
      -- of `1.6`, and the result lands within `1e-9` of `h`
      push_neg at hc
      have hzb : (h - 0.6778) ^ (3.064 : ℝ) <
          1.5501 / (HeadMethod.H1_break - 3.32254659218600974) := by
        rw [hval] at hc
        have h1 : HeadMethod.H1_break - 3.32254659218600974 <
            1.5501 / (h - 0.6778) ^ (3.064 : ℝ) := by linarith
        rw [lt_div_iff₀ hz_pos] at h1
        rw [lt_div_iff₀ H1_break_den_pos, mul_comm]
        exact h1
      have hhub : h - 0.6778 < 0.922200000000000099 := by
        have s1 : h - 0.6778 =
            ((h - 0.6778) ^ (3.064 : ℝ)) ^ (1 / (3.064 : ℝ)) := by
          rw [one_div, Real.rpow_rpow_inv hb2.le (by norm_num)]
        have s2 : ((h - 0.6778) ^ (3.064 : ℝ)) ^ (1 / (3.064 : ℝ)) <
            (1.5501 / (HeadMethod.H1_break - 3.32254659218600974)) ^
              (1 / (3.064 : ℝ)) :=
          Real.rpow_lt_rpow hz_pos.le hzb (by norm_num)
        calc h - 0.6778 = _ := s1
          _ < _ := s2
          _ ≤ 0.922200000000000099 := roundtrip_T_ub
      have hzB : (0.9222 : ℝ) ^ (3.064 : ℝ) < (h - 0.6778) ^ (3.064 : ℝ) :=
        Real.rpow_lt_rpow (by norm_num) (by linarith) (by norm_num)
      have hy_ub2 : HeadMethod.H1 h < 5.309261520316297947 := by
        rw [hval]
        have h1 := div_lt_div_of_pos_left (show (0 : ℝ) < 1.5501 by norm_num)
          rpowB_pos hzB
        have h2 : (1.5501 : ℝ) / (0.9222 : ℝ) ^ (3.064 : ℝ) ≤
            1.5501 / 0.780232723906096747 :=
          div_le_div_of_nonneg_left (by norm_num) (by norm_num) rpowB_lb
        have h3 : (3.32254659218600974 : ℝ) + 1.5501 / 0.780232723906096747 ≤
            5.309261520316297947 := by norm_num
        linarith
      have hy33 : (3.3 : ℝ) < HeadMethod.H1 h := by
        linarith [H1_break_den_lb, hc]
      have hw_lb : (0.409802303818758432 : ℝ) ≤
          0.8234 / (HeadMethod.H1 h - 3.3) := by
        have h2 : (0.8234 : ℝ) / (5.309261520316297947 - 3.3) ≤
            0.8234 / (HeadMethod.H1 h - 3.3) :=
          div_le_div_of_nonneg_left (by norm_num) (by linarith)
            (by linarith)
        have h3 : (0.409802303818758432 : ℝ) ≤
            0.8234 / (5.309261520316297947 - 3.3) := by norm_num
        linarith
      have hw_ub : 0.8234 / (HeadMethod.H1 h - 3.3) <
          (0.5 : ℝ) ^ (1.287 : ℝ) := by
        have h1 : 0.8234 / (0.5 : ℝ) ^ (1.287 : ℝ) <
            HeadMethod.H1 h - 3.3 := by
          have hb : HeadMethod.H1_break - 3.3 =
              0.8234 / (0.5 : ℝ) ^ (1.287 : ℝ) := by
            rw [H1_break_eq]; ring
          linarith [hc, hb.ge]
        have h2 := div_lt_div_of_pos_left (show (0 : ℝ) < 0.8234 by norm_num)
          (div_pos (by norm_num) rpowA_pos) h1
        have h3 : (0.8234 : ℝ) / (0.8234 / (0.5 : ℝ) ^ (1.287 : ℝ)) =
            (0.5 : ℝ) ^ (1.287 : ℝ) := by
          field_simp
        rw [h3] at h2
        exact h2
      have hw_pos : (0 : ℝ) < 0.8234 / (HeadMethod.H1 h - 3.3) :=
        div_pos (by norm_num) (by linarith)
      have hr_lb : (0.499999999999999875 : ℝ) ≤
          (0.8234 / (HeadMethod.H1 h - 3.3)) ^ (1 / (1.287 : ℝ)) := by
        rw [show (1 / (1.287 : ℝ)) = ((1000 : ℕ) : ℝ) / ((1287 : ℕ) : ℝ)
          by norm_num]
        have s1 : (0.499999999999999875 : ℝ) ≤
            (0.409802303818758432 : ℝ) ^
              (((1000 : ℕ) : ℝ) / ((1287 : ℕ) : ℝ)) :=
          le_rpow_div 1000 1287 (by norm_num) (by norm_num) (by norm_num)
            (by norm_num)
        have s2 := Real.rpow_le_rpow
          (show (0 : ℝ) ≤ 0.409802303818758432 by norm_num) hw_lb
          (show (0 : ℝ) ≤ ((1000 : ℕ) : ℝ) / ((1287 : ℕ) : ℝ) by positivity)
        linarith
      have hr_ub : (0.8234 / (HeadMethod.H1 h - 3.3)) ^ (1 / (1.287 : ℝ)) <
          0.5 := by
        rw [one_div]
        have s1 : (0.8234 / (HeadMethod.H1 h - 3.3)) ^ ((1.287 : ℝ))⁻¹ <
            ((0.5 : ℝ) ^ (1.287 : ℝ)) ^ ((1.287 : ℝ))⁻¹ :=
          Real.rpow_lt_rpow hw_pos.le hw_ub (by norm_num)
        rwa [Real.rpow_rpow_inv (by norm_num) (by norm_num)] at s1
      refine ⟨HeadMethod.H_d_high (HeadMethod.H1 h), ?_, ?_⟩
      · unfold HeadMethod.H_d_inv
        rw [if_neg hnotraise, if_neg (not_le.mpr hc)]
      · unfold HeadMethod.H_d_high
        rw [abs_le]
        constructor <;> linarith

/-- Witness for C5 at the concrete shape factor `H_d = 2`. -/
theorem H_d_inverts_H1_witness :
    (1.1 : ℝ) < 2 ∧
      ∃ r, HeadMethod.H_d_inv (HeadMethod.H1 2) = some r ∧ |r - 2| ≤ 1e-9 :=
  ⟨by norm_num, H_d_inverts_H1 2 (by norm_num)⟩

/-! ## C3: the linear Thwaites method on a flat plate -/

/-- The Blasius flat-plate momentum thickness `0.664*sqrt(nu*x/U)` for
`U = 10`, `nu = 1e-5`. -/
def blasius (x : ℝ) : ℝ := 0.664 * Real.sqrt (1e-5 * x / 10)

/-- Initial ODE state per `ThwaitesMethod._ode_setup`,
`delta_m0^2 / nu`, with the flat-plate-consistent initial momentum thickness
`delta_m0 = blasius(0.1)` at the start location `x = 0.1`. -/
def flatPlateF0 : ℝ := (blasius 0.1) ^ 2 / 1e-5

/-- The exact solution of `dF/dx = (0.45 - 6*lambda)/(1e-3 + U)` for constant
`U = 10` (so `dU/dx = 0` and `lambda = 0`): a straight line of slope
`0.45/(1e-3 + 10)` through the initial state. -/
def flatPlateF (x : ℝ) : ℝ := flatPlateF0 + 0.45 / (1e-3 + 10) * (x - 0.1)

/-- The configured linear Thwaites method state of the flat-plate scenario:
`U = 10`, `nu = 1e-5`, zero pressure gradient, solution `flatPlateF`. -/
def flatPlate : ThwaitesMethodData where
  nu := 1e-5
  U_e := fun _ => 10
  dU_edx := fun _ => 0
  model := thwaitesCB
  sol := flatPlateF

lemma flatPlateF0_eq : flatPlateF0 = 0.00440896 := by
  unfold flatPlateF0 blasius
  rw [mul_pow, Real.sq_sqrt (by norm_num)]
  norm_num

lemma flatPlateF_eq (x : ℝ) :
    flatPlateF x = 0.00440896 + 0.45 / 10.001 * (x - 0.1) := by
  unfold flatPlateF
  rw [flatPlateF0_eq]
  norm_num

/-- `flatPlateF` solves the linear Thwaites ODE right-hand side
`_ode_impl` everywhere. -/
lemma flatPlateF_solves (x : ℝ) :
    HasDerivAt flatPlateF (flatPlate.linear_ode_impl x (flatPlateF x)) x := by
  have h1 : flatPlate.linear_ode_impl x (flatPlateF x) = 0.45 / (1e-3 + 10) := by
    unfold ThwaitesMethodData.linear_ode_impl ThwaitesMethodData.linear_calc_F
      ThwaitesMethodData.calc_lambda flatPlate
    norm_num
  rw [h1]
  have h2 := (((hasDerivAt_id x).sub_const 0.1).const_mul
    (0.45 / (1e-3 + 10))).const_add flatPlateF0
  simpa using h2

lemma flatPlate_delta_m_eq (x : ℝ) :
    flatPlate.delta_m x = Real.sqrt (flatPlateF x * 1e-5) := rfl

/-- C3 counterexample: at `x = 5` the solved momentum thickness exceeds the
flat-plate value by about `1.002%`, violating the claimed `1%` bound (the
`1e-3` floor in the denominator is not enough to pull the exact-ODE slope
`0.45/10.001` down to the Blasius-consistent `0.0440896`). -/
theorem thwaites_flat_plate_1pct_fails :
    ¬ |flatPlate.delta_m 5 - blasius 5| ≤ 0.01 * blasius 5 := by
  have hkey : 1.01 * blasius 5 < flatPlate.delta_m 5 := by
    rw [flatPlate_delta_m_eq, flatPlateF_eq]
    unfold blasius
    have h1 : (1.01 : ℝ) * (0.664 * Real.sqrt (1e-5 * 5 / 10)) =
        (1.01 * 0.664) * Real.sqrt (1e-5 * 5 / 10) := by ring
    have h2 : ((1.01 : ℝ) * 0.664) * Real.sqrt (1e-5 * 5 / 10) =
        Real.sqrt ((1.01 * 0.664) ^ 2 * (1e-5 * 5 / 10)) := by
      rw [Real.sqrt_mul (by positivity), Real.sqrt_sq (by norm_num)]
    rw [h1, h2]
    apply Real.sqrt_lt_sqrt (by positivity)
    norm_num
  intro habs
  have hb_pos : 0 < blasius 5 := by
    unfold blasius
    have : (0 : ℝ) < Real.sqrt (1e-5 * 5 / 10) :=
      Real.sqrt_pos.mpr (by norm_num)
    positivity
  rcases abs_le.mp habs with ⟨-, h2⟩
  linarith

/-- C3 (amended): with the flat-plate-consistent initial momentum thickness
at `x = 0.1`, the exact solution of `dF/dx = (0.45 - 6*lambda)/(1e-3 + U)`
reproduces the flat-plate momentum thickness within `1.01%` (not `1%`) for
every `x` in `[0.1, 5]`; the first conjunct certifies that `flatPlateF` does
solve the linear Thwaites right-hand side. -/
theorem thwaites_flat_plate_within_1p01 :
    (∀ x : ℝ,
      HasDerivAt flatPlateF (flatPlate.linear_ode_impl x (flatPlateF x)) x)
    ∧ ∀ x : ℝ, 0.1 ≤ x → x ≤ 5 →
        |flatPlate.delta_m x - blasius x| ≤ 0.0101 * blasius x := by
  refine ⟨flatPlateF_solves, ?_⟩
  intro x h1 h5
  have hx0 : (0 : ℝ) ≤ x := by linarith
  have ht0 : (0 : ℝ) ≤ 1e-5 * x / 10 := by positivity
  have hlow : blasius x ≤ flatPlate.delta_m x := by
    rw [flatPlate_delta_m_eq, flatPlateF_eq]
    unfold blasius
    have h2 : (0.664 : ℝ) * Real.sqrt (1e-5 * x / 10) =
        Real.sqrt ((0.664 : ℝ) ^ 2 * (1e-5 * x / 10)) := by
      rw [Real.sqrt_mul (by positivity), Real.sqrt_sq (by norm_num)]
    rw [h2]
    apply Real.sqrt_le_sqrt
    nlinarith
  have hhigh : flatPlate.delta_m x ≤ 1.0101 * blasius x := by
    rw [flatPlate_delta_m_eq, flatPlateF_eq]
    unfold blasius
    have h2 : (1.0101 : ℝ) * (0.664 * Real.sqrt (1e-5 * x / 10)) =
        Real.sqrt ((1.0101 * 0.664) ^ 2 * (1e-5 * x / 10)) := by
      rw [Real.sqrt_mul (by positivity), Real.sqrt_sq (by norm_num)]
      ring
    rw [h2]
    apply Real.sqrt_le_sqrt
    nlinarith
  have hb0 : 0 ≤ blasius x := by
    unfold blasius
    positivity
  rw [abs_le]
  constructor <;> linarith

/-- Witness for C3 (amended) at the concrete position `x = 1`. -/
theorem thwaites_flat_plate_within_1p01_witness :
    ((0.1 : ℝ) ≤ 1 ∧ (1 : ℝ) ≤ 5) ∧
      |flatPlate.delta_m 1 - blasius 1| ≤ 0.0101 * blasius 1 :=
  ⟨⟨by norm_num, by norm_num⟩,
   thwaites_flat_plate_within_1p01.2 1 (by norm_num) (by norm_num)⟩

end PyBL
